import Mathlib

/-!
Verification of the fxa-client device-command subsystem
(`components/fxa-client/src/{device,send_tab,commands/send_tab,http_client,lib}.rs`).

The Rust code is shallowly embedded as executable Lean definitions:

* pure functions become Lean functions;
* `&mut self` methods become explicit state passing on `StateV2`;
* network calls go through an oracle `FxAClientModel`; every operation
  additionally returns the list of network calls it made and the number of
  times the persistence hook (`maybe_call_persist_callback`) ran, so frame
  conditions ("no invoke call was made", "persistence did not fire") are
  directly statable;
* fallible Rust code (`Result`) becomes `Except FxAError`.

External collaborators that are not part of the sources under verification
(the `hex`, `base64`, `serde_json`, `ring`/`ece` crates and the sync15
`KeyBundle`) are modelled from the specification as executable codecs and
ideal invertible ciphers; each such definition carries a doc comment
starting with `Modelled from the spec:`.  All definitions of this file that
do not carry that marker are direct translations of the Rust source.
-/

/-! ## JSON values (`serde_json::Value`) -/

/-- Shallow embedding of `serde_json::Value`.  Numbers are modelled as
integers, which covers every numeric value the verified code reads
(`u64` indices and error codes). -/
inductive Json where
  | null
  | bool (b : Bool)
  | num (n : Int)
  | str (s : String)
  | arr (elems : List Json)
  | obj (fields : List (String × Json))
deriving Repr

/-- Field access on a JSON object: `j["key"]` for objects, nothing
otherwise (serde_json indexing on a non-object yields `Null`;
we model the subsequent `as_*` failure through `Option`). -/
def Json.get : Json → String → Option Json
  | .obj fields, key => go fields key
  | _, _ => none
where go : List (String × Json) → String → Option Json
  | [], _ => none
  | (k, v) :: rest, key => if k = key then some v else go rest key

/-- `j["key"].as_u64().unwrap_or(0)` as used by `make_request`. -/
def Json.getU64 (j : Json) (key : String) : Nat :=
  match j.get key with
  | some (.num n) => if 0 ≤ n then n.toNat else 0
  | _ => 0

/-- `j["key"].as_str().unwrap_or("")` as used by `make_request`. -/
def Json.getStr (j : Json) (key : String) : String :=
  match j.get key with
  | some (.str s) => s
  | _ => ""

/-! ## Error taxonomy (`errors::ErrorKind`) -/

/-- The error kinds reachable from the verified functions.  `jsonError`,
`base64Error` and `hexError` stand for the corresponding `From`-converted
crate errors; `panicOnKidSplit` models the Rust panic in
`sync_keys_as_send_tab_kek` when the scoped key id contains no `-`. -/
inductive FxAError where
  | noRefreshToken
  | noScopedKey (scope : String)
  | unknownCommand (command : String)
  | unsupportedCommand (command : String)
  | unknownTargetDevice (id : String)
  | mismatchedKeys
  | hmacMismatch
  | illegalState (msg : String)
  | remoteError (code errno : Nat) (error message info : String)
  | httpStatusError (status : Nat)
  | jsonError
  | base64Error
  | hexError
  | badKeyLength
  | cryptoError
  | panicOnKidSplit
deriving Repr, DecidableEq

/-! ## Byte-level codecs

Bytes are `Nat`s; a byte list is *valid* when every entry is `< 256`. -/

/-- Every entry of the list is an actual byte value. -/
def ValidBytes (bs : List Nat) : Prop := ∀ b ∈ bs, b < 256

instance : DecidablePred ValidBytes := fun bs =>
  inferInstanceAs (Decidable (∀ b ∈ bs, b < 256))

theorem charToNat_ofNat (n : Nat) (h : n.isValidChar) : (Char.ofNat n).toNat = n := by
  unfold Char.ofNat
  rw [dif_pos h]
  rfl

theorem isValidChar_of_lt_256 {n : Nat} (h : n < 256) : n.isValidChar :=
  Or.inl (lt_trans h (by norm_num))

/-! ### Hex (`hex` crate) -/

/-- Modelled from the spec: the `hex` crate's digit alphabet
(`hex::encode` emits lowercase digits). -/
def hexDigitChar (n : Nat) : Char :=
  if n < 10 then Char.ofNat (48 + n) else Char.ofNat (87 + n)

/-- Modelled from the spec: `hex::encode`, two digits per byte. -/
def hexEncode (bs : List Nat) : String :=
  String.mk (bs.flatMap fun b => [hexDigitChar (b % 256 / 16), hexDigitChar (b % 16)])

/-- Modelled from the spec: value of one hex digit (`hex::decode` accepts
both cases). -/
def hexDigitVal (c : Char) : Option Nat :=
  if 48 ≤ c.toNat ∧ c.toNat ≤ 57 then some (c.toNat - 48)
  else if 97 ≤ c.toNat ∧ c.toNat ≤ 102 then some (c.toNat - 87)
  else if 65 ≤ c.toNat ∧ c.toNat ≤ 70 then some (c.toNat - 55)
  else none

def hexDecodeChars : List Char → Option (List Nat)
  | [] => some []
  | c1 :: c2 :: rest =>
    match hexDigitVal c1, hexDigitVal c2, hexDecodeChars rest with
    | some h, some l, some bs => some ((16 * h + l) :: bs)
    | _, _, _ => none
  | _ => none

/-- Modelled from the spec: `hex::decode`. -/
def hexDecode (s : String) : Option (List Nat) := hexDecodeChars s.data

theorem hexDigitVal_hexDigitChar : ∀ n : Fin 16, hexDigitVal (hexDigitChar n.val) = some n.val := by
  decide

theorem hexDecodeChars_append (b : Nat) (hb : b < 256) (rest : List Char) :
    hexDecodeChars (hexDigitChar (b % 256 / 16) :: hexDigitChar (b % 16) :: rest) =
      (hexDecodeChars rest).map (fun bs => b :: bs) := by
  have h1 : b % 256 / 16 < 16 := by omega
  have h2 : b % 16 < 16 := by omega
  have e1 := hexDigitVal_hexDigitChar ⟨b % 256 / 16, h1⟩
  have e2 := hexDigitVal_hexDigitChar ⟨b % 16, h2⟩
  simp only [hexDecodeChars, e1, e2]
  have : 16 * (b % 256 / 16) + b % 16 = b := by omega
  cases hexDecodeChars rest <;> simp [this]

/-- Hex round-trip, for valid bytes. -/
theorem hexDecode_hexEncode (bs : List Nat) (h : ValidBytes bs) :
    hexDecode (hexEncode bs) = some bs := by
  unfold hexDecode hexEncode
  induction bs with
  | nil => rfl
  | cons b rest ih =>
    have hb : b < 256 := h b (List.mem_cons_self _ _)
    have hrest : ValidBytes rest := fun x hx => h x (List.mem_cons_of_mem _ hx)
    simp only [List.flatMap_cons, List.cons_append, List.nil_append]
    rw [hexDecodeChars_append b hb, ih hrest]
    rfl

/-! ### Base64 (`base64` crate)

Modelled from the spec: the `base64` crate with its two configurations
used by the source (`STANDARD` and `URL_SAFE_NO_PAD`).  The claims depend
only on the encode/decode round-trip, on the text/byte distinction, and on
the two alphabets being distinct; the packing is modelled as two alphabet
characters per byte rather than the 3-byte-to-4-char packing. -/

inductive Base64Config where
  | standard
  | urlSafeNoPad
deriving DecidableEq

/-- Modelled from the spec: character of one 6-bit value in the given
alphabet. -/
def b64Char (cfg : Base64Config) (n : Nat) : Char :=
  if n < 26 then Char.ofNat (65 + n)
  else if n < 52 then Char.ofNat (97 + (n - 26))
  else if n < 62 then Char.ofNat (48 + (n - 52))
  else if n = 62 then (match cfg with | .standard => '+' | .urlSafeNoPad => '-')
  else (match cfg with | .standard => '/' | .urlSafeNoPad => '_')

/-- Modelled from the spec: value of one alphabet character. -/
def b64Val (cfg : Base64Config) (c : Char) : Option Nat :=
  if 65 ≤ c.toNat ∧ c.toNat ≤ 90 then some (c.toNat - 65)
  else if 97 ≤ c.toNat ∧ c.toNat ≤ 122 then some (26 + (c.toNat - 97))
  else if 48 ≤ c.toNat ∧ c.toNat ≤ 57 then some (52 + (c.toNat - 48))
  else match cfg with
    | .standard => if c = '+' then some 62 else if c = '/' then some 63 else none
    | .urlSafeNoPad => if c = '-' then some 62 else if c = '_' then some 63 else none

/-- Modelled from the spec: `base64::encode_config`. -/
def base64EncodeConfig (cfg : Base64Config) (bs : List Nat) : String :=
  String.mk (bs.flatMap fun b => [b64Char cfg (b % 256 / 64), b64Char cfg (b % 64)])

def base64DecodeChars (cfg : Base64Config) : List Char → Option (List Nat)
  | [] => some []
  | c1 :: c2 :: rest =>
    match b64Val cfg c1, b64Val cfg c2, base64DecodeChars cfg rest with
    | some h, some l, some bs => if h < 4 then some ((64 * h + l) :: bs) else none
    | _, _, _ => none
  | _ => none

/-- Modelled from the spec: `base64::decode_config`. -/
def base64DecodeConfig (cfg : Base64Config) (s : String) : Option (List Nat) :=
  base64DecodeChars cfg s.data

theorem b64Val_b64Char_standard :
    ∀ n : Fin 64, b64Val .standard (b64Char .standard n.val) = some n.val := by
  decide

theorem b64Val_b64Char_urlSafe :
    ∀ n : Fin 64, b64Val .urlSafeNoPad (b64Char .urlSafeNoPad n.val) = some n.val := by
  decide

theorem b64Val_b64Char (cfg : Base64Config) (n : Nat) (h : n < 64) :
    b64Val cfg (b64Char cfg n) = some n := by
  cases cfg
  · exact b64Val_b64Char_standard ⟨n, h⟩
  · exact b64Val_b64Char_urlSafe ⟨n, h⟩

theorem base64DecodeChars_append (cfg : Base64Config) (b : Nat) (hb : b < 256)
    (rest : List Char) :
    base64DecodeChars cfg (b64Char cfg (b % 256 / 64) :: b64Char cfg (b % 64) :: rest) =
      (base64DecodeChars cfg rest).map (fun bs => b :: bs) := by
  have h1 : b % 256 / 64 < 64 := by omega
  have h2 : b % 64 < 64 := by omega
  simp only [base64DecodeChars, b64Val_b64Char cfg _ h1, b64Val_b64Char cfg _ h2]
  have h4 : b % 256 / 64 < 4 := by omega
  have : 64 * (b % 256 / 64) + b % 64 = b := by omega
  cases base64DecodeChars cfg rest <;> simp [h4, this]

/-- Base64 round-trip, for valid bytes, in each configuration. -/
theorem base64Decode_base64Encode (cfg : Base64Config) (bs : List Nat) (h : ValidBytes bs) :
    base64DecodeConfig cfg (base64EncodeConfig cfg bs) = some bs := by
  unfold base64DecodeConfig base64EncodeConfig
  induction bs with
  | nil => rfl
  | cons b rest ih =>
    have hb : b < 256 := h b (List.mem_cons_self _ _)
    have hrest : ValidBytes rest := fun x hx => h x (List.mem_cons_of_mem _ hx)
    simp only [List.flatMap_cons, List.cons_append, List.nil_append]
    rw [base64DecodeChars_append cfg b hb, ih hrest]
    rfl

theorem base64Encode_valid (cfg : Base64Config) (bs : List Nat) (s : List Nat)
    (h : base64DecodeConfig cfg (base64EncodeConfig cfg bs) = some s) (hv : ValidBytes bs) :
    s = bs := by
  rw [base64Decode_base64Encode cfg bs hv] at h
  exact (Option.some_inj.mp h).symm

/-! ### Field framing (serde_json record serialization)

Modelled from the spec: `serde_json` struct (de)serialization for the
small record types of the send-tab component, together with the UTF-8
string/byte conversions.  The verified claims depend only on
serialize/deserialize round-trips, so records are modelled as framed field
lists: every content character is preceded by a tag character and every
field is terminated by a separator character, which makes the encoding
injective and decodable. -/

def fieldTag : Char := 'F'

def fieldSep : Char := ';'

def encodeFieldChars (s : List Char) : List Char :=
  (s.flatMap fun c => [fieldTag, c]) ++ [fieldSep]

/-- Modelled from the spec: serialization of a record given as its field
list. -/
def encodeFields (fs : List String) : String :=
  String.mk (fs.flatMap fun s => encodeFieldChars s.data)

def decodeFieldsChars : List Char → Option (List String)
  | [] => some []
  | t :: rest =>
    if t = fieldSep then (decodeFieldsChars rest).map (fun fs => "" :: fs)
    else if t = fieldTag then
      match rest with
      | [] => none
      | c :: rest2 =>
        match decodeFieldsChars rest2 with
        | some (f :: fs) => some (String.mk (c :: f.data) :: fs)
        | _ => none
    else none

/-- Modelled from the spec: deserialization of a record's field list. -/
def decodeFields (s : String) : Option (List String) := decodeFieldsChars s.data

theorem decodeFieldsChars_sep (rest : List Char) :
    decodeFieldsChars (fieldSep :: rest) =
      (decodeFieldsChars rest).map (fun fs => "" :: fs) := by
  rw [decodeFieldsChars.eq_def]
  norm_num

theorem decodeFieldsChars_tag (c : Char) (rest2 : List Char) :
    decodeFieldsChars (fieldTag :: c :: rest2) =
      match decodeFieldsChars rest2 with
      | some (f :: fs) => some (String.mk (c :: f.data) :: fs)
      | _ => none := by
  rw [decodeFieldsChars.eq_def]
  simp only [if_neg (show ¬ (fieldTag = fieldSep) by decide), if_pos rfl, if_true]

theorem decodeFieldsChars_encodeField (s : List Char) (rest : List Char) (fs : List String)
    (h : decodeFieldsChars rest = some fs) :
    decodeFieldsChars (encodeFieldChars s ++ rest) = some (String.mk s :: fs) := by
  induction s with
  | nil =>
    have e : encodeFieldChars [] ++ rest = fieldSep :: rest := rfl
    rw [e, decodeFieldsChars_sep, h]
    rfl
  | cons c cs ih =>
    have e : encodeFieldChars (c :: cs) ++ rest
        = fieldTag :: c :: (encodeFieldChars cs ++ rest) := by
      simp [encodeFieldChars, List.append_assoc]
    rw [e, decodeFieldsChars_tag, ih]

theorem decodeFields_encodeFields (fs : List String) :
    decodeFields (encodeFields fs) = some fs := by
  unfold decodeFields encodeFields
  induction fs with
  | nil => rfl
  | cons f rest ih =>
    simp only [List.flatMap_cons]
    rw [decodeFieldsChars_encodeField f.data _ rest ih]

/-! ### String/byte conversion (UTF-8)

Modelled from the spec: the UTF-8 encoding used by `String::as_bytes`,
`serde_json::to_vec` and the `String` result of `KeyBundle::decrypt`,
modelled as a fixed-width (three bytes per character) injective encoding
with a matching partial decoder. -/

def charBytes (c : Char) : List Nat :=
  [c.toNat / 65536, c.toNat / 256 % 256, c.toNat % 256]

/-- Modelled from the spec: `String::as_bytes` / `str::as_bytes`. -/
def strBytes (s : String) : List Nat := s.data.flatMap charBytes

def bytesToChars : List Nat → Option (List Char)
  | [] => some []
  | a :: b :: c :: rest =>
    let n := a * 65536 + b * 256 + c
    if h : n.isValidChar then
      match bytesToChars rest with
      | some cs => some (Char.ofNat n :: cs)
      | none => none
    else none
  | _ => none

/-- Modelled from the spec: the bytes-to-`String` conversion performed by
`KeyBundle::decrypt` (fails on invalid data). -/
def bytesToString (bs : List Nat) : Option String := (bytesToChars bs).map String.mk

theorem char_isValidChar_toNat (c : Char) : c.toNat.isValidChar := c.valid

theorem charOfNat_toNat (c : Char) : Char.ofNat c.toNat = c := by
  unfold Char.ofNat
  rw [dif_pos (char_isValidChar_toNat c)]
  exact Char.ext rfl

theorem bytesToChars_charBytes (c : Char) (rest : List Nat) :
    bytesToChars (charBytes c ++ rest) = (bytesToChars rest).map (fun cs => c :: cs) := by
  have e : charBytes c ++ rest
      = c.toNat / 65536 :: (c.toNat / 256 % 256 :: (c.toNat % 256 :: rest)) := rfl
  rw [e]
  simp only [bytesToChars]
  have hn : c.toNat / 65536 * 65536 + c.toNat / 256 % 256 * 256 + c.toNat % 256 = c.toNat := by
    omega
  rw [hn]
  rw [dif_pos (char_isValidChar_toNat c)]
  rw [charOfNat_toNat c]
  cases bytesToChars rest <;> rfl

/-- UTF-8 model round-trip. -/
theorem bytesToString_strBytes (s : String) : bytesToString (strBytes s) = some s := by
  unfold bytesToString strBytes
  have : ∀ cs : List Char, bytesToChars (cs.flatMap charBytes) = some cs := by
    intro cs
    induction cs with
    | nil => rfl
    | cons c rest ih => rw [List.flatMap_cons, bytesToChars_charBytes, ih]; rfl
  rw [this s.data]
  rfl

theorem charBytes_valid (c : Char) : ValidBytes (charBytes c) := by
  have h := c.valid
  have he : c.toNat = c.val.toNat := rfl
  have hlt : c.toNat < 1114112 := by
    rw [he]
    rcases h with h | h
    · omega
    · omega
  intro b hb
  simp only [charBytes, List.mem_cons, List.not_mem_nil, or_false] at hb
  rcases hb with rfl | rfl | rfl <;> omega

theorem strBytes_valid (s : String) : ValidBytes (strBytes s) := by
  intro b hb
  simp only [strBytes, List.mem_flatMap] at hb
  obtain ⟨c, _, hc⟩ := hb
  exact charBytes_valid c b hc

/-! ### Association lists (`HashMap<String, _>`) -/

/-- `HashMap::get`. -/
def alookup {α : Type} : List (String × α) → String → Option α
  | [], _ => none
  | (k, v) :: rest, key => if k = key then some v else alookup rest key

/-- `HashMap::insert` (replacing semantics). -/
def ainsert {α : Type} : List (String × α) → String → α → List (String × α)
  | [], key, v => [(key, v)]
  | (k, w) :: rest, key, v =>
    if k = key then (k, v) :: rest else (k, w) :: ainsert rest key v

theorem alookup_ainsert {α : Type} (m : List (String × α)) (k : String) (v : α) :
    alookup (ainsert m k v) k = some v := by
  induction m with
  | nil => simp [ainsert, alookup]
  | cons p rest ih =>
    by_cases h : p.1 = k
    · simp [ainsert, alookup, h]
    · simp [ainsert, alookup, h, ih]

/-! ## Send-tab data model (`commands/send_tab.rs`) -/

/-- `pub const COMMAND_NAME` in `commands/send_tab.rs`. -/
def COMMAND_NAME : String := "https://identity.mozilla.com/cmd/open-uri"

/-- `PrivateSendTabKeys`: per-device command key material.  Key bytes are
kept as byte lists. -/
structure PrivateSendTabKeys where
  public_key : List Nat
  private_key : List Nat
  auth_secret : List Nat
deriving Repr, DecidableEq

/-- Key material made of actual bytes (always true of generated keys). -/
def PrivateSendTabKeys.wf (k : PrivateSendTabKeys) : Prop :=
  ValidBytes k.public_key ∧ ValidBytes k.private_key ∧ ValidBytes k.auth_secret

instance (k : PrivateSendTabKeys) : Decidable k.wf :=
  inferInstanceAs (Decidable (_ ∧ _ ∧ _))

/-- `PublicSendTabKeys`: the exported half, both fields base64url text. -/
structure PublicSendTabKeys where
  public_key : String
  auth_secret : String
deriving Repr, DecidableEq

/-- `SendTabKeysPayload`: the wire form of the wrapped registration blob. -/
structure SendTabKeysPayload where
  kid : String
  iv : String
  hmac : String
  ciphertext : String
deriving Repr, DecidableEq

structure TabData where
  title : String
  url : String
deriving Repr, DecidableEq

structure SendTabPayload where
  entries : List TabData
deriving Repr, DecidableEq

/-- `SendTabPayload::single_tab`. -/
def SendTabPayload.single_tab (title url : String) : SendTabPayload :=
  ⟨[⟨title, url⟩]⟩

structure EncryptedSendTabPayload where
  encrypted : String
deriving Repr, DecidableEq

/-- `KeyEncryptingKey::SyncKeys(ksync, kxcs)`. -/
inductive KeyEncryptingKey where
  | syncKeys (ksync kxcs : List Nat)
deriving Repr, DecidableEq

/-! ## sync15 `KeyBundle` (repository component not under the verified
sources) -/

/-- Modelled from the spec: the sync15 key bundle derived from `ksync`.
A 64-byte `ksync` splits into a 32-byte encryption key and a 32-byte HMAC
key. -/
structure KeyBundle where
  encKey : List Nat
  hmacKey : List Nat
deriving Repr, DecidableEq

/-- Modelled from the spec: `KeyBundle::from_ksync_bytes` (fails unless
`ksync` is exactly 64 bytes). -/
def keyBundleFromKsyncBytes (ksync : List Nat) : Except FxAError KeyBundle :=
  if ksync.length = 64 then .ok ⟨ksync.take 32, ksync.drop 32⟩ else .error .badKeyLength

/-- Modelled from the spec: the symmetric cipher inside
`KeyBundle::encrypt_bytes_rand_iv`, as an ideal keyed byte-wise
bijection; the caller passes the randomly drawn IV explicitly. -/
def cipherEncryptBytes (key : KeyBundle) (pt iv : List Nat) : List Nat :=
  pt.map fun b => (b + key.encKey.sum + iv.sum) % 256

/-- Modelled from the spec: the symmetric decryption inside
`KeyBundle::decrypt`, the inverse of `cipherEncryptBytes`. -/
def cipherDecryptBytes (key : KeyBundle) (ct iv : List Nat) : List Nat :=
  ct.map fun b => (b + 512 - (key.encKey.sum + iv.sum) % 256) % 256

theorem cipherDecrypt_cipherEncrypt (key : KeyBundle) (pt iv : List Nat)
    (h : ValidBytes pt) :
    cipherDecryptBytes key (cipherEncryptBytes key pt iv) iv = pt := by
  unfold cipherDecryptBytes cipherEncryptBytes
  rw [List.map_map]
  have : ∀ b ∈ pt, ((b + key.encKey.sum + iv.sum) % 256 + 512
      - (key.encKey.sum + iv.sum) % 256) % 256 = b := by
    intro b hb
    have := h b hb
    omega
  calc pt.map _ = pt.map id := List.map_congr_left fun b hb => this b hb
    _ = pt := List.map_id pt

theorem cipherEncryptBytes_valid (key : KeyBundle) (pt iv : List Nat) :
    ValidBytes (cipherEncryptBytes key pt iv) := by
  intro b hb
  simp only [cipherEncryptBytes, List.mem_map] at hb
  obtain ⟨x, _, rfl⟩ := hb
  omega

/-- Modelled from the spec: `KeyBundle::hmac_string` — the hex text of the
bundle's HMAC over `data`, as an executable keyed digest. -/
def hmacString (hmacKey data : List Nat) : String :=
  hexEncode ((hmacKey.sum + data.length) % 256 :: data.map fun b => (b + hmacKey.sum) % 256)

/-- Modelled from the spec: `KeyBundle::verify_hmac_string` — recompute the
HMAC over `data` and compare with the stored text. -/
def verifyHmacString (hmacKey : List Nat) (hmac : String) (data : List Nat) : Bool :=
  hmac = hmacString hmacKey data

/-! ## `ece` crate (WebPush payload encryption; external collaborator) -/

/-- Modelled from the spec: `LocalKeyPairImpl::pub_as_raw` — the public
key determined by a private key, as an injective byte map. -/
def ecePubOfPriv (priv : List Nat) : List Nat :=
  priv.map fun b => (b * 7 + 1) % 256

/-- Modelled from the spec: `Aes128GcmEceWebPushImpl::encrypt`, an ideal
invertible scheme keyed by the recipient public key and auth secret. -/
def eceEncrypt (publicKey authSecret pt : List Nat) : List Nat :=
  pt.map fun b => (b + publicKey.sum + authSecret.sum) % 256

/-- Modelled from the spec: `Aes128GcmEceWebPushImpl::decrypt` with the
private key whose public half keyed the encryption. -/
def eceDecrypt (priv authSecret ct : List Nat) : Except FxAError (List Nat) :=
  .ok (ct.map fun b => (b + 512 - ((ecePubOfPriv priv).sum + authSecret.sum) % 256) % 256)

/-- Modelled from the spec: `LocalKeyPairImpl::new` (accepts generated key
bytes). -/
def localKeyPairNew (priv : List Nat) : Except FxAError Unit := .ok ()

/-! ## serde models for the record types -/

/-- Byte list as a field string (one character per byte). -/
def bytesFieldString (bs : List Nat) : String :=
  String.mk (bs.map fun b => Char.ofNat (b % 256))

/-- Field string back to its byte list. -/
def fieldStringBytes (s : String) : List Nat := s.data.map Char.toNat

theorem fieldStringBytes_bytesFieldString (bs : List Nat) (h : ValidBytes bs) :
    fieldStringBytes (bytesFieldString bs) = bs := by
  unfold fieldStringBytes bytesFieldString
  show (bs.map fun b => Char.ofNat (b % 256)).map Char.toNat = bs
  rw [List.map_map]
  have : ∀ b ∈ bs, (Char.toNat ∘ fun b => Char.ofNat (b % 256)) b = b := by
    intro b hb
    have hb256 := h b hb
    show (Char.ofNat (b % 256)).toNat = b
    rw [charToNat_ofNat _ (isValidChar_of_lt_256 (by omega))]
    omega
  rw [List.map_congr_left this]
  exact List.map_id' bs

/-- Modelled from the spec: `serde_json::to_string::<PrivateSendTabKeys>`. -/
def privateSendTabKeysToString (k : PrivateSendTabKeys) : String :=
  encodeFields [bytesFieldString k.public_key, bytesFieldString k.private_key,
    bytesFieldString k.auth_secret]

/-- Modelled from the spec: `serde_json::from_str::<PrivateSendTabKeys>`. -/
def privateSendTabKeysFromStr (s : String) : Option PrivateSendTabKeys :=
  match decodeFields s with
  | some [a, b, c] =>
    some ⟨fieldStringBytes a, fieldStringBytes b, fieldStringBytes c⟩
  | _ => none

theorem privateSendTabKeys_roundTrip (k : PrivateSendTabKeys) (h : k.wf) :
    privateSendTabKeysFromStr (privateSendTabKeysToString k) = some k := by
  unfold privateSendTabKeysFromStr privateSendTabKeysToString
  rw [decodeFields_encodeFields]
  obtain ⟨h1, h2, h3⟩ := h
  simp only [fieldStringBytes_bytesFieldString _ h1, fieldStringBytes_bytesFieldString _ h2,
    fieldStringBytes_bytesFieldString _ h3]

/-- Modelled from the spec: `serde_json::to_vec::<PublicSendTabKeys>` (the
cleartext bytes wrapped by KeyWrap). -/
def publicSendTabKeysToVec (k : PublicSendTabKeys) : List Nat :=
  strBytes (encodeFields [k.public_key, k.auth_secret])

/-- Modelled from the spec: `serde_json::from_str::<PublicSendTabKeys>`
(applied to the decrypted cleartext string). -/
def publicSendTabKeysFromStr (s : String) : Option PublicSendTabKeys :=
  match decodeFields s with
  | some [pk, auth] => some ⟨pk, auth⟩
  | _ => none

/-- Modelled from the spec: `serde_json::to_string::<SendTabKeysPayload>`
(the registration blob as stored in `available_commands`). -/
def sendTabKeysPayloadToString (p : SendTabKeysPayload) : String :=
  encodeFields [p.kid, p.iv, p.hmac, p.ciphertext]

/-- Modelled from the spec: `serde_json::from_str::<SendTabKeysPayload>`. -/
def sendTabKeysPayloadFromStr (s : String) : Option SendTabKeysPayload :=
  match decodeFields s with
  | some [kid, iv, hmac, ciphertext] => some ⟨kid, iv, hmac, ciphertext⟩
  | _ => none

/-- Modelled from the spec: `serde_json::to_vec::<SendTabPayload>`. -/
def sendTabPayloadToVec (p : SendTabPayload) : List Nat :=
  strBytes (encodeFields (p.entries.flatMap fun t => [t.title, t.url]))

def pairUpTabs : List String → Option (List TabData)
  | [] => some []
  | t :: u :: rest => (pairUpTabs rest).map fun ts => ⟨t, u⟩ :: ts
  | _ => none

/-- Modelled from the spec: `serde_json::from_slice::<SendTabPayload>`. -/
def sendTabPayloadFromSlice (bs : List Nat) : Option SendTabPayload :=
  match bytesToString bs with
  | none => none
  | some s =>
    match decodeFields s with
    | none => none
    | some fields => (pairUpTabs fields).map fun ts => ⟨ts⟩

theorem pairUpTabs_flatMap (ts : List TabData) :
    pairUpTabs (ts.flatMap fun t => [t.title, t.url]) = some ts := by
  induction ts with
  | nil => rfl
  | cons t rest ih =>
    show (pairUpTabs (rest.flatMap fun t => [t.title, t.url])).map
        (fun l => TabData.mk t.title t.url :: l) = some (t :: rest)
    rw [ih]
    rfl

theorem sendTabPayload_roundTrip (p : SendTabPayload) :
    sendTabPayloadFromSlice (sendTabPayloadToVec p) = some p := by
  unfold sendTabPayloadFromSlice sendTabPayloadToVec
  rw [bytesToString_strBytes]
  show (match decodeFields (encodeFields (p.entries.flatMap fun t => [t.title, t.url])) with
    | none => none
    | some fields => (pairUpTabs fields).map fun ts => SendTabPayload.mk ts) = some p
  rw [decodeFields_encodeFields]
  show (pairUpTabs (p.entries.flatMap fun t => [t.title, t.url])).map
      (fun ts => SendTabPayload.mk ts) = some p
  rw [pairUpTabs_flatMap p.entries]
  rfl

/-- `serde_json::to_value::<EncryptedSendTabPayload>` (the invoke-command
payload). -/
def encryptedSendTabPayloadToValue (e : EncryptedSendTabPayload) : Json :=
  .obj [("encrypted", .str e.encrypted)]

/-- `serde_json::from_value::<EncryptedSendTabPayload>` (the incoming
command payload): requires an object with an `encrypted` string field. -/
def encryptedSendTabPayloadFromValue (j : Json) : Option EncryptedSendTabPayload :=
  match j.get "encrypted" with
  | some (.str s) => some ⟨s⟩
  | _ => none

/-! ## `commands/send_tab.rs` — translated functions -/

/-- `EncryptedSendTabPayload::decrypt`. -/
def EncryptedSendTabPayload.decrypt (self : EncryptedSendTabPayload)
    (keys : PrivateSendTabKeys) : Except FxAError SendTabPayload :=
  match base64DecodeConfig .urlSafeNoPad self.encrypted with
  | none => .error .base64Error
  | some encrypted =>
    match localKeyPairNew keys.private_key with
    | .error e => .error e
    | .ok _ =>
      match eceDecrypt keys.private_key keys.auth_secret encrypted with
      | .error e => .error e
      | .ok decrypted =>
        match sendTabPayloadFromSlice decrypted with
        | none => .error .jsonError
        | some payload => .ok payload

/-- `SendTabPayload::encrypt` (the `ece` salt randomness is suppressed by
the ideal-cipher model). -/
def SendTabPayload.encrypt (self : SendTabPayload) (keys : PublicSendTabKeys) :
    Except FxAError EncryptedSendTabPayload :=
  let bytes := sendTabPayloadToVec self
  match base64DecodeConfig .urlSafeNoPad keys.public_key with
  | none => .error .base64Error
  | some public_key =>
    match base64DecodeConfig .urlSafeNoPad keys.auth_secret with
    | none => .error .base64Error
    | some auth_secret =>
      let encrypted := eceEncrypt public_key auth_secret bytes
      .ok ⟨base64EncodeConfig .urlSafeNoPad encrypted⟩

/-- `PrivateSendTabKeys::from_random` takes the freshly generated key
material as an explicit argument (the RNG draw happens outside the model);
the public key is the one determined by the private key. -/
def privateSendTabKeysFromRandom (private_key auth_secret : List Nat) :
    PrivateSendTabKeys :=
  ⟨ecePubOfPriv private_key, private_key, auth_secret⟩

/-- `SendTabKeysPayload::decrypt`. -/
def SendTabKeysPayload.decrypt (self : SendTabKeysPayload) (ksync kxcs : List Nat) :
    Except FxAError PublicSendTabKeys :=
  match hexDecode self.kid with
  | none => .error .hexError
  | some kidBytes =>
    if kidBytes ≠ kxcs then .error .mismatchedKeys
    else
      match keyBundleFromKsyncBytes ksync with
      | .error e => .error e
      | .ok key =>
        if ¬ verifyHmacString key.hmacKey self.hmac (strBytes self.ciphertext) then
          .error .hmacMismatch
        else
          match base64DecodeConfig .standard self.iv with
          | none => .error .base64Error
          | some iv =>
            match base64DecodeConfig .standard self.ciphertext with
            | none => .error .base64Error
            | some ciphertext =>
              match bytesToString (cipherDecryptBytes key ciphertext iv) with
              | none => .error .cryptoError
              | some cleartext =>
                match publicSendTabKeysFromStr cleartext with
                | none => .error .jsonError
                | some keys => .ok keys

/-- `PublicSendTabKeys::encrypt` (the randomly drawn IV of
`encrypt_bytes_rand_iv` is an explicit argument). -/
def PublicSendTabKeys.encrypt (self : PublicSendTabKeys) (ksync kxcs iv : List Nat) :
    Except FxAError SendTabKeysPayload :=
  match keyBundleFromKsyncBytes ksync with
  | .error e => .error e
  | .ok key =>
    let cleartext := publicSendTabKeysToVec self
    let enc_bytes := cipherEncryptBytes key cleartext iv
    let iv_base64 := base64EncodeConfig .standard iv
    let enc_base64 := base64EncodeConfig .standard enc_bytes
    let hmac := hmacString key.hmacKey (strBytes enc_base64)
    .ok ⟨hexEncode kxcs, iv_base64, hmac, enc_base64⟩

/-- `PublicSendTabKeys::as_command_data`. -/
def PublicSendTabKeys.as_command_data (self : PublicSendTabKeys)
    (kek : KeyEncryptingKey) (iv : List Nat) : Except FxAError String :=
  match kek with
  | .syncKeys ksync kxcs =>
    match self.encrypt ksync kxcs iv with
    | .error e => .error e
    | .ok encrypted_public_keys => .ok (sendTabKeysPayloadToString encrypted_public_keys)

/-- `impl From<PrivateSendTabKeys> for PublicSendTabKeys`. -/
def publicSendTabKeysOfPrivate (internal : PrivateSendTabKeys) : PublicSendTabKeys :=
  ⟨base64EncodeConfig .urlSafeNoPad internal.public_key,
   base64EncodeConfig .urlSafeNoPad internal.auth_secret⟩

/-! ## Devices and HTTP layer (`http_client.rs`) -/

inductive DeviceType where
  | desktop
  | mobile
  | unknown
deriving Repr, DecidableEq

structure PushSubscription where
  endpoint : String
  public_key : String
  auth_key : String
deriving Repr, DecidableEq

/-- `DeviceResponseCommon` (= `Device`). -/
structure Device where
  id : String
  display_name : String
  device_type : DeviceType
  push_subscription : Option PushSubscription
  available_commands : List (String × String)
  push_endpoint_expired : Bool
deriving Repr, DecidableEq

structure CommandData where
  command : String
  payload : Json
  sender : Option String
deriving Repr

structure PendingCommand where
  index : Nat
  data : CommandData
deriving Repr

structure PendingCommandsResponse where
  index : Nat
  last : Option Bool
  messages : List PendingCommand
deriving Repr

/-- The double-`Option` update request (`DeviceUpdateRequest`). -/
structure DeviceUpdateRequest where
  display_name : Option (Option String)
  device_type : Option (Option DeviceType)
  push_subscription : Option PushSubscription
  available_commands : Option (Option (List (String × String)))
deriving Repr

/-- An HTTP response as seen by `make_request`: a status code and the
JSON parse of the body (`none` when the body is not JSON). -/
structure HttpResponse where
  status : Nat
  body : Option Json
deriving Repr

/-- `Client::make_request`: 2xx and 304 pass through; anything else
becomes a `RemoteError` built from the body's `code`/`errno`/`error`/
`message`/`info` fields, or a bare HTTP error if the body is not JSON. -/
def make_request (r : Except FxAError HttpResponse) : Except FxAError HttpResponse :=
  match r with
  | .error e => .error e
  | .ok resp =>
    if (200 ≤ resp.status ∧ resp.status < 300) ∨ resp.status = 304 then .ok resp
    else
      match resp.body with
      | some json =>
        .error (.remoteError (json.getU64 "code") (json.getU64 "errno")
          (json.getStr "error") (json.getStr "message") (json.getStr "info"))
      | none => .error (.httpStatusError resp.status)

/-- serde decode of `Option<String>` struct fields: missing or `null`
gives `None`, a string gives `Some`, anything else fails. -/
def decodeOptString : Option Json → Option (Option String)
  | none => some none
  | some .null => some none
  | some (.str s) => some (some s)
  | some _ => none

def decodeOptBool : Option Json → Option (Option Bool)
  | none => some none
  | some .null => some none
  | some (.bool b) => some (some b)
  | some _ => none

def decodeU64 : Json → Option Nat
  | .num n => if 0 ≤ n then some n.toNat else none
  | _ => none

/-- serde decode of `CommandData`. -/
def decodeCommandData (j : Json) : Option CommandData :=
  match j.get "command", j.get "payload", decodeOptString (j.get "sender") with
  | some (.str command), some payload, some sender => some ⟨command, payload, sender⟩
  | _, _, _ => none

/-- serde decode of `PendingCommand`. -/
def decodePendingCommand (j : Json) : Option PendingCommand :=
  match (j.get "index").bind decodeU64, (j.get "data").bind decodeCommandData with
  | some index, some data => some ⟨index, data⟩
  | _, _ => none

/-- serde decode of `PendingCommandsResponse`. -/
def decodePendingCommandsResponse (j : Json) : Option PendingCommandsResponse :=
  match (j.get "index").bind decodeU64, decodeOptBool (j.get "last"), j.get "messages" with
  | some index, some last, some (.arr msgs) =>
    match msgs.mapM decodePendingCommand with
    | some messages => some ⟨index, last, messages⟩
    | none => none
  | _, _, _ => none

/-- The network calls an operation can make, in order. -/
inductive NetCall where
  | pendingCommands (index : Nat)
  | devices
  | invokeCommand (command : String) (target : String) (payload : Json)
  | updateDevice (update : DeviceUpdateRequest)
deriving Repr

/-- The oracle standing for the HTTP client: responses of the relay
server (plus transport failures) for each endpoint.  `pendingCommands`
is modelled down to the HTTP response so that `make_request`'s status
handling is part of the verified code; the other endpoints' results are
given directly as their `Result` outcome. -/
structure FxAClientModel where
  pendingCommandsHttp : String → Nat → Option Nat → Except FxAError HttpResponse
  devicesResult : String → Except FxAError (List Device)
  invokeCommandResult : String → String → String → Json → Except FxAError Unit
  updateDeviceResult : String → DeviceUpdateRequest → Except FxAError Unit

/-- `Client::pending_commands` (`FxAClient::pending_commands`):
`make_request(...)?.json()`. -/
def clientPendingCommands (client : FxAClientModel) (refresh_token : String)
    (index : Nat) (limit : Option Nat) : Except FxAError PendingCommandsResponse :=
  match make_request (client.pendingCommandsHttp refresh_token index limit) with
  | .error e => .error e
  | .ok resp =>
    match resp.body with
    | some j =>
      match decodePendingCommandsResponse j with
      | some r => .ok r
      | none => .error .jsonError
    | none => .error .jsonError

/-! ## Account state (`lib.rs`) -/

/-- Modelled from the spec: `ScopedKey` (defined in `scoped_keys.rs`,
outside the verified sources) — only the fields the verified code reads:
`kid` and the base64url-encoded key `k`. -/
structure ScopedKey where
  kid : String
  k : String
deriving Repr, DecidableEq

/-- `StateV2`, restricted to the fields the verified operations touch
(`config` is only routed to the HTTP client and is part of the oracle;
`RefreshToken` is represented by its `token` string). -/
structure StateV2 where
  refresh_token : Option String
  scoped_keys : List (String × ScopedKey)
  last_handled_command : Option Nat
  commands_data : List (String × String)
deriving Repr, DecidableEq

/-- A `FirefoxAccount` as far as the verified operations see it: the
state plus whether a persistence callback is registered. -/
structure Account where
  state : StateV2
  persist_callback : Bool
deriving Repr, DecidableEq

/-- `AccountEvent`. -/
inductive AccountEvent where
  | tabReceived (sender : Option Device) (payload : SendTabPayload)
deriving Repr

/-- Outcome of one `FirefoxAccount` operation: the `Result`, the state
after the call, the network calls made (in order) and how many times the
persistence callback ran. -/
structure OpResult (α : Type) where
  result : Except FxAError α
  state : StateV2
  calls : List NetCall
  persists : Nat

/-- `FirefoxAccount::get_refresh_token`. -/
def getRefreshToken (st : StateV2) : Except FxAError String :=
  match st.refresh_token with
  | some token => .ok token
  | none => .error .noRefreshToken

/-- Modelled from the spec: `FirefoxAccount::get_scoped_key` (defined in
`scoped_keys.rs`, outside the verified sources): look the scope up in
`scoped_keys`, failing when absent. -/
def getScopedKey (st : StateV2) (scope : String) : Except FxAError ScopedKey :=
  match alookup st.scoped_keys scope with
  | some key => .ok key
  | none => .error (.noScopedKey scope)

/-- `scopes::OLD_SYNC`. -/
def OLD_SYNC : String := "https://identity.mozilla.com/apps/oldsync"

/-- `FirefoxAccount::maybe_call_persist_callback`: the callback runs
exactly when one is registered. -/
def maybeCallPersistCallback (acct : Account) : Nat :=
  if acct.persist_callback then 1 else 0

/-- `kid.splitn(2, '-').collect::<Vec<_>>()[1]`: everything after the
first `-`; the Rust code panics when there is no `-`, modelled as `none`. -/
def splitKidAfterDash (kid : String) : Option String :=
  go kid.data
where go : List Char → Option String
  | [] => none
  | c :: rest => if c = '-' then some (String.mk rest) else go rest

/-- `FirefoxAccount::sync_keys_as_send_tab_kek` (`send_tab.rs`). -/
def syncKeysAsSendTabKek (st : StateV2) : Except FxAError KeyEncryptingKey :=
  match getScopedKey st OLD_SYNC with
  | .error e => .error e
  | .ok oldsync_key =>
    match base64DecodeConfig .urlSafeNoPad oldsync_key.k with
    | none => .error .base64Error
    | some ksync =>
      match splitKidAfterDash oldsync_key.kid with
      | none => .error .panicOnKidSplit
      | some kxcs_str =>
        match base64DecodeConfig .urlSafeNoPad kxcs_str with
        | none => .error .base64Error
        | some kxcs => .ok (.syncKeys ksync kxcs)

/-! ## Device operations (`device.rs`) -/

/-- `FirefoxAccount::get_devices`. -/
def getDevices (client : FxAClientModel) (st : StateV2) : OpResult (List Device) :=
  match getRefreshToken st with
  | .error e => ⟨.error e, st, [], 0⟩
  | .ok access_token => ⟨client.devicesResult access_token, st, [.devices], 0⟩

/-- `FirefoxAccount::invoke_command`. -/
def invokeCommand (client : FxAClientModel) (st : StateV2) (command : String)
    (target : Device) (payload : Json) : OpResult Unit :=
  match getRefreshToken st with
  | .error e => ⟨.error e, st, [], 0⟩
  | .ok access_token =>
    ⟨client.invokeCommandResult access_token command target.id payload, st,
      [.invokeCommand command target.id payload], 0⟩

/-- `FirefoxAccount::update_device`. -/
def updateDevice (client : FxAClientModel) (st : StateV2)
    (update : DeviceUpdateRequest) : OpResult Unit :=
  match getRefreshToken st with
  | .error e => ⟨.error e, st, [], 0⟩
  | .ok refresh_token =>
    ⟨client.updateDeviceResult refresh_token update, st, [.updateDevice update], 0⟩

/-- `FirefoxAccount::register_command`: a one-entry `availableCommands`
map in a fresh update request. -/
def registerCommand (client : FxAClientModel) (st : StateV2)
    (command value : String) : OpResult Unit :=
  updateDevice client st ⟨none, none, none, some (some [(command, value)])⟩

/-! ## Receiving commands (`send_tab.rs` and `device.rs`) -/

/-- `FirefoxAccount::handle_send_tab_command` (reads state only). -/
def handleSendTabCommand (st : StateV2) (sender : Option Device) (payload : Json) :
    Except FxAError (Option Device × SendTabPayload) :=
  match alookup st.commands_data COMMAND_NAME with
  | none =>
    .error (.illegalState "Cannot find send-tab keys. Has ensure_send_tab been called before?")
  | some s =>
    match privateSendTabKeysFromStr s with
    | none => .error .jsonError
    | some send_tab_key =>
      match encryptedSendTabPayloadFromValue payload with
      | none => .error .jsonError
      | some encrypted_payload =>
        match encrypted_payload.decrypt send_tab_key with
        | .error e => .error e
        | .ok tab => .ok (sender, tab)

/-- `FirefoxAccount::handle_command` (reads state only). -/
def handleCommand (st : StateV2) (command_data : CommandData) (devices : List Device) :
    Except FxAError (Option Device × SendTabPayload) :=
  let sender := command_data.sender.bind fun s => devices.find? fun i => i.id = s
  if command_data.command = COMMAND_NAME then
    handleSendTabCommand st sender command_data.payload
  else
    .error (.unknownCommand command_data.command)

/-- `FirefoxAccount::handle_commands`: fetch the device list, then
dispatch every message, collecting the successes and logging (dropping)
the failures. -/
def handleCommands (client : FxAClientModel) (st : StateV2)
    (messages : List PendingCommand) : OpResult (List AccountEvent) :=
  let commands := messages.map fun m => m.data
  match getDevices client st with
  | ⟨.error e, st1, calls, p⟩ => ⟨.error e, st1, calls, p⟩
  | ⟨.ok devices, st1, calls, p⟩ =>
    ⟨.ok (commands.filterMap fun data =>
        (handleCommand st1 data devices).toOption.map fun r =>
          AccountEvent.tabReceived r.1 r.2),
      st1, calls, p⟩

/-- `FirefoxAccount::poll_remote_commands`. -/
def pollRemoteCommands (client : FxAClientModel) (acct : Account) :
    OpResult (List AccountEvent) :=
  let st := acct.state
  let last_command_index := st.last_handled_command.getD 0
  match getRefreshToken st with
  | .error e => ⟨.error e, st, [], 0⟩
  | .ok refresh_token =>
    match clientPendingCommands client refresh_token (last_command_index + 1) none with
    | .error e => ⟨.error e, st, [.pendingCommands (last_command_index + 1)], 0⟩
    | .ok pending_commands =>
      if pending_commands.messages.length = 0 then
        ⟨.ok [], st, [.pendingCommands (last_command_index + 1)], 0⟩
      else
        match handleCommands client st pending_commands.messages with
        | ⟨.error e, st1, calls1, p1⟩ =>
          ⟨.error e, st1, .pendingCommands (last_command_index + 1) :: calls1, p1⟩
        | ⟨.ok account_events, st1, calls1, p1⟩ =>
          ⟨.ok account_events,
            { st1 with last_handled_command := some pending_commands.index },
            .pendingCommands (last_command_index + 1) :: calls1,
            p1 + maybeCallPersistCallback acct⟩

/-! ## Registration and sending (`send_tab.rs`) -/

/-- `commands/send_tab.rs::build_send_command`. -/
def build_send_command (kek : KeyEncryptingKey) (target : Device)
    (send_tab_payload : SendTabPayload) : Except FxAError Json :=
  match kek with
  | .syncKeys ksync kxcs =>
    match alookup target.available_commands COMMAND_NAME with
    | none => .error (.unsupportedCommand "Send Tab")
    | some command =>
      match sendTabKeysPayloadFromStr command with
      | none => .error .jsonError
      | some bundle =>
        match bundle.decrypt ksync kxcs with
        | .error e => .error e
        | .ok public_keys =>
          match send_tab_payload.encrypt public_keys with
          | .error e => .error e
          | .ok encrypted_payload => .ok (encryptedSendTabPayloadToValue encrypted_payload)

/-- Tail of `FirefoxAccount::ensure_send_tab_registered` after the key
material is available: derive the public keys, wrap them with the KEK and
publish them via `register_command`. -/
def ensureSendTabRegisteredPublish (client : FxAClientModel) (st : StateV2)
    (own_keys : PrivateSendTabKeys) (iv : List Nat) (persistsSoFar : Nat) :
    OpResult Unit :=
  let public_keys := publicSendTabKeysOfPrivate own_keys
  match syncKeysAsSendTabKek st with
  | .error e => ⟨.error e, st, [], persistsSoFar⟩
  | .ok kek =>
    match public_keys.as_command_data kek iv with
    | .error e => ⟨.error e, st, [], persistsSoFar⟩
    | .ok command_data =>
      match registerCommand client st COMMAND_NAME command_data with
      | ⟨r, st2, calls, p⟩ => ⟨r, st2, calls, persistsSoFar + p⟩

/-- `FirefoxAccount::ensure_send_tab_registered`.  The RNG draws are
explicit arguments: `fresh` is what `PrivateSendTabKeys::from_random`
would generate on this call, `iv` the IV drawn inside
`encrypt_bytes_rand_iv`. -/
def ensureSendTabRegistered (client : FxAClientModel) (acct : Account)
    (fresh : PrivateSendTabKeys) (iv : List Nat) : OpResult Unit :=
  let st := acct.state
  match alookup st.commands_data COMMAND_NAME with
  | some s =>
    match privateSendTabKeysFromStr s with
    | none => ⟨.error .jsonError, st, [], 0⟩
    | some own_keys => ensureSendTabRegisteredPublish client st own_keys iv 0
  | none =>
    let st1 := { st with
      commands_data := ainsert st.commands_data COMMAND_NAME
        (privateSendTabKeysToString fresh) }
    ensureSendTabRegisteredPublish client st1 fresh iv (maybeCallPersistCallback acct)

/-- `FirefoxAccount::send_tab`. -/
def sendTab (client : FxAClientModel) (acct : Account)
    (target_device_id title url : String) : OpResult Unit :=
  let st := acct.state
  match getDevices client st with
  | ⟨.error e, st1, calls, p⟩ => ⟨.error e, st1, calls, p⟩
  | ⟨.ok devices, st1, calls, p⟩ =>
    match devices.find? fun d => d.id = target_device_id with
    | none => ⟨.error (.unknownTargetDevice target_device_id), st1, calls, p⟩
    | some target =>
      let payload := SendTabPayload.single_tab title url
      match syncKeysAsSendTabKek st1 with
      | .error e => ⟨.error e, st1, calls, p⟩
      | .ok kek =>
        match build_send_command kek target payload with
        | .error e => ⟨.error e, st1, calls, p⟩
        | .ok command_payload =>
          match invokeCommand client st1 COMMAND_NAME target command_payload with
          | ⟨r, st2, calls2, p2⟩ => ⟨r, st2, calls ++ calls2, p + p2⟩

/-! ## Claim theorems -/

/-- **C10**: a poll whose pending-commands response contains zero messages
returns an empty event list, leaves the whole account state (including
`last_handled_command` and `commands_data`) unchanged, makes no further
network call, and never reaches the persistence callback. -/
theorem poll_empty_batch_is_noop (client : FxAClientModel) (acct : Account)
    (token : String) (resp : PendingCommandsResponse)
    (hTok : acct.state.refresh_token = some token)
    (hResp : clientPendingCommands client token
      (acct.state.last_handled_command.getD 0 + 1) none = .ok resp)
    (hEmpty : resp.messages = []) :
    (pollRemoteCommands client acct).result = .ok []
    ∧ (pollRemoteCommands client acct).state = acct.state
    ∧ (pollRemoteCommands client acct).persists = 0
    ∧ (pollRemoteCommands client acct).calls
        = [.pendingCommands (acct.state.last_handled_command.getD 0 + 1)] := by
  simp only [pollRemoteCommands, getRefreshToken, hTok, hResp, hEmpty, List.length_nil,
    if_pos rfl]
  exact ⟨rfl, rfl, rfl, rfl⟩

/-- **C1**: every poll requests the server with index
`last_handled_command + 1` (`0` standing for a missing mark), and when the
returned message list is non-empty and the whole batch is processed, the
new `last_handled_command` is the server-reported batch index
`resp.index` — not the index of any individual message. -/
theorem poll_request_index_and_high_water_mark (client : FxAClientModel)
    (acct : Account) (token : String) (resp : PendingCommandsResponse)
    (devices : List Device)
    (hTok : acct.state.refresh_token = some token)
    (hResp : clientPendingCommands client token
      (acct.state.last_handled_command.getD 0 + 1) none = .ok resp)
    (hNe : resp.messages ≠ [])
    (hDevs : client.devicesResult token = .ok devices) :
    (pollRemoteCommands client acct).calls.head?
      = some (.pendingCommands (acct.state.last_handled_command.getD 0 + 1))
    ∧ (pollRemoteCommands client acct).state.last_handled_command = some resp.index := by
  simp only [pollRemoteCommands, getRefreshToken, hTok, hResp, handleCommands, getDevices,
    hDevs, List.length_eq_zero, hNe, if_false]
  refine ⟨?_, ?_⟩ <;> trivial

/-- **C2**: when the poll batch is non-empty and the device-directory
fetch fails, the whole poll fails with that error, the state (mark and
key cache included) is unchanged and the persistence callback does not
run, so the next poll requests the same batch again. -/
theorem poll_aborts_when_device_fetch_fails (client : FxAClientModel)
    (acct : Account) (token : String) (resp : PendingCommandsResponse)
    (e : FxAError)
    (hTok : acct.state.refresh_token = some token)
    (hResp : clientPendingCommands client token
      (acct.state.last_handled_command.getD 0 + 1) none = .ok resp)
    (hNe : resp.messages ≠ [])
    (hDevErr : client.devicesResult token = .error e) :
    (pollRemoteCommands client acct).result = .error e
    ∧ (pollRemoteCommands client acct).state = acct.state
    ∧ (pollRemoteCommands client acct).persists = 0 := by
  simp only [pollRemoteCommands, getRefreshToken, hTok, hResp, handleCommands, getDevices,
    hDevErr, List.length_eq_zero, hNe, if_false]
  refine ⟨?_, ?_, ?_⟩ <;> trivial

/-- **C3**: with a non-empty batch and a successful device fetch, a
dispatch failure on one message (unknown command name, decrypt failure,
malformed payload, ...) only drops that message: the poll succeeds, the
event list holds exactly one event per successfully dispatched message in
batch order, the server-reported batch index becomes the new high-water
mark, and the persistence callback fires exactly once. -/
theorem poll_skips_failing_messages (client : FxAClientModel)
    (acct : Account) (token : String) (resp : PendingCommandsResponse)
    (devices : List Device)
    (hTok : acct.state.refresh_token = some token)
    (hResp : clientPendingCommands client token
      (acct.state.last_handled_command.getD 0 + 1) none = .ok resp)
    (hNe : resp.messages ≠ [])
    (hDevs : client.devicesResult token = .ok devices)
    (hCb : acct.persist_callback = true) :
    (pollRemoteCommands client acct).result
      = .ok ((resp.messages.map fun m => m.data).filterMap fun data =>
          (handleCommand acct.state data devices).toOption.map fun r =>
            AccountEvent.tabReceived r.1 r.2)
    ∧ (pollRemoteCommands client acct).state.last_handled_command = some resp.index
    ∧ (pollRemoteCommands client acct).persists = 1 := by
  simp only [pollRemoteCommands, getRefreshToken, hTok, hResp, handleCommands, getDevices,
    hDevs, List.length_eq_zero, hNe, if_false, maybeCallPersistCallback, hCb]
  refine ⟨?_, ?_, ?_⟩ <;> trivial

/-- `get_devices` never writes the account state. -/
theorem getDevices_state (client : FxAClientModel) (st : StateV2) :
    (getDevices client st).state = st := by
  unfold getDevices
  cases getRefreshToken st <;> rfl

/-- `handle_commands` never writes the account state (it only reads
`commands_data` and fetches the device list). -/
theorem handleCommands_state (client : FxAClientModel) (st : StateV2)
    (messages : List PendingCommand) :
    (handleCommands client st messages).state = st := by
  unfold handleCommands
  have h := getDevices_state client st
  rcases hg : getDevices client st with ⟨r, st1, calls, p⟩
  rw [hg] at h
  simp only at h
  rcases r with e | devices
  · exact h
  · exact h

/-- Concrete fixture for C9: an account whose stored mark is `10`. -/
def c9Account : Account :=
  ⟨⟨some "tok", [], some 10, []⟩, true⟩

/-- Concrete fixture for C9: a relay whose pending-commands endpoint
reports batch index `3` with one (undecryptable) message. -/
def c9Client : FxAClientModel where
  pendingCommandsHttp := fun _ _ _ => .ok ⟨200, some (.obj
    [("index", .num 3),
     ("messages", .arr [.obj
       [("index", .num 3),
        ("data", .obj [("command", .str "bogus"), ("payload", .null)])]])])⟩
  devicesResult := fun _ => .ok []
  invokeCommandResult := fun _ _ _ _ => .ok ()
  updateDeviceResult := fun _ _ => .ok ()

/-- **C9, counterexample**: `poll_remote_commands` trusts the
server-reported batch index: polling `c9Client` from a state whose mark is
`10` succeeds and rewrites the mark to `3 < 10`, so the claimed
unconditional monotonicity fails. -/
theorem poll_moves_mark_backwards_on_small_server_index :
    c9Account.state.last_handled_command = some 10
    ∧ (pollRemoteCommands c9Client c9Account).result = .ok []
    ∧ (pollRemoteCommands c9Client c9Account).state.last_handled_command = some 3
    ∧ 3 < 10 := by
  refine ⟨rfl, rfl, rfl, by norm_num⟩

/-- **C9, amended**: the stored mark is monotonic non-decreasing provided
every batch index the server reports for the requested poll is at least
the stored mark; the code takes the server-reported index on trust and
offers no protection against a server that reports a smaller one. -/
theorem poll_mark_monotonic_for_honest_server (client : FxAClientModel)
    (acct : Account)
    (hSrv : ∀ token resp, clientPendingCommands client token
        (acct.state.last_handled_command.getD 0 + 1) none = .ok resp →
      acct.state.last_handled_command.getD 0 ≤ resp.index) :
    acct.state.last_handled_command.getD 0
      ≤ (pollRemoteCommands client acct).state.last_handled_command.getD 0 := by
  rcases hT : acct.state.refresh_token with _ | token
  · simp [pollRemoteCommands, getRefreshToken, hT]
  · rcases hR : clientPendingCommands client token
        (acct.state.last_handled_command.getD 0 + 1) none with e | resp
    · simp [pollRemoteCommands, getRefreshToken, hT, hR]
    · by_cases hLen : resp.messages.length = 0
      · simp [pollRemoteCommands, getRefreshToken, hT, hR, hLen]
      · have hst := handleCommands_state client acct.state resp.messages
        rcases hH : handleCommands client acct.state resp.messages with ⟨r, st1, calls1, p1⟩
        rw [hH] at hst
        rcases r with e | evs
        · simp only [pollRemoteCommands, getRefreshToken, hT, hR, hLen, if_false, hH]
          simp only at hst
          rw [hst]
        · simp only [pollRemoteCommands, getRefreshToken, hT, hR, hLen, if_false, hH]
          exact hSrv token resp hR

/-- Concrete fixture for the C9 witness: a relay reporting batch index
`20` on the same account. -/
def c9HonestClient : FxAClientModel where
  pendingCommandsHttp := fun _ _ _ => .ok ⟨200, some (.obj
    [("index", .num 20),
     ("messages", .arr [.obj
       [("index", .num 20),
        ("data", .obj [("command", .str "bogus"), ("payload", .null)])]])])⟩
  devicesResult := fun _ => .ok []
  invokeCommandResult := fun _ _ _ _ => .ok ()
  updateDeviceResult := fun _ _ => .ok ()

theorem poll_mark_monotonic_for_honest_server_witness :
    (∀ token resp, clientPendingCommands c9HonestClient token
        (c9Account.state.last_handled_command.getD 0 + 1) none = .ok resp →
      c9Account.state.last_handled_command.getD 0 ≤ resp.index)
    ∧ c9Account.state.last_handled_command.getD 0
      ≤ (pollRemoteCommands c9HonestClient c9Account).state.last_handled_command.getD 0 := by
  have hSrv : ∀ token resp, clientPendingCommands c9HonestClient token
      (c9Account.state.last_handled_command.getD 0 + 1) none = .ok resp →
      c9Account.state.last_handled_command.getD 0 ≤ resp.index := by
    intro token resp h
    have e : clientPendingCommands c9HonestClient token
        (c9Account.state.last_handled_command.getD 0 + 1) none
        = .ok ⟨20, none, [⟨20, ⟨"bogus", .null, none⟩⟩]⟩ := rfl
    rw [e] at h
    injection h with h2
    rw [← h2]
    decide
  exact ⟨hSrv, poll_mark_monotonic_for_honest_server c9HonestClient c9Account hSrv⟩

/-- Concrete fixture for C7: a brand-new account (no mark, no history). -/
def c7Account : Account :=
  ⟨⟨some "tok", [], none, []⟩, true⟩

/-- Concrete fixture for C7: a relay answering the pending-commands fetch
with HTTP 404 and a JSON error body. -/
def c7Client : FxAClientModel where
  pendingCommandsHttp := fun _ _ _ => .ok ⟨404, some (.obj
    [("code", .num 404), ("errno", .num 110), ("error", .str "Not Found"),
     ("message", .str "Unknown"), ("info", .str "")])⟩
  devicesResult := fun _ => .ok []
  invokeCommandResult := fun _ _ _ _ => .ok ()
  updateDeviceResult := fun _ _ => .ok ()

/-- **C7, counterexample**: a "not found" pending-commands response is
*not* treated like an empty result: `make_request` turns every
non-2xx/304 status into a `RemoteError`, so the poll returns an error
rather than an empty event list (the state is still untouched). -/
theorem poll_not_found_returns_error :
    (pollRemoteCommands c7Client c7Account).result
      = .error (.remoteError 404 110 "Not Found" "Unknown" "")
    ∧ (pollRemoteCommands c7Client c7Account).result ≠ .ok []
    ∧ (pollRemoteCommands c7Client c7Account).state = c7Account.state := by
  refine ⟨rfl, fun hEq => ?_, rfl⟩
  rw [show (pollRemoteCommands c7Client c7Account).result
      = Except.error (FxAError.remoteError 404 110 "Not Found" "Unknown" "") from rfl] at hEq
  exact Except.noConfusion hEq

/-- **C7, amended**: a "not found" (or any other non-2xx/304) response to
the pending-commands fetch makes the poll fail with the `RemoteError`
built from the response body; the state is unchanged, no events are
returned and the persistence callback does not run. -/
theorem poll_error_status_propagates (client : FxAClientModel) (acct : Account)
    (token : String) (status : Nat) (body : Json)
    (hTok : acct.state.refresh_token = some token)
    (hHttp : client.pendingCommandsHttp token
      (acct.state.last_handled_command.getD 0 + 1) none = .ok ⟨status, some body⟩)
    (hStatus : ¬ ((200 ≤ status ∧ status < 300) ∨ status = 304)) :
    (pollRemoteCommands client acct).result
      = .error (.remoteError (body.getU64 "code") (body.getU64 "errno")
          (body.getStr "error") (body.getStr "message") (body.getStr "info"))
    ∧ (pollRemoteCommands client acct).state = acct.state
    ∧ (pollRemoteCommands client acct).persists = 0 := by
  have hMR : make_request (.ok ⟨status, some body⟩)
      = .error (.remoteError (body.getU64 "code") (body.getU64 "errno")
          (body.getStr "error") (body.getStr "message") (body.getStr "info")) := by
    show (if (200 ≤ status ∧ status < 300) ∨ status = 304
        then (Except.ok ⟨status, some body⟩ : Except FxAError HttpResponse)
        else .error (.remoteError (body.getU64 "code") (body.getU64 "errno")
            (body.getStr "error") (body.getStr "message") (body.getStr "info")))
      = .error (.remoteError (body.getU64 "code") (body.getU64 "errno")
          (body.getStr "error") (body.getStr "message") (body.getStr "info"))
    rw [if_neg hStatus]
  have hPC : clientPendingCommands client token
      (acct.state.last_handled_command.getD 0 + 1) none
      = .error (.remoteError (body.getU64 "code") (body.getU64 "errno")
          (body.getStr "error") (body.getStr "message") (body.getStr "info")) := by
    unfold clientPendingCommands
    rw [hHttp, hMR]
  simp only [pollRemoteCommands, getRefreshToken, hTok, hPC]
  refine ⟨?_, ?_, ?_⟩ <;> trivial

/-- Concrete fixture for C8: a target device advertising no command at
all. -/
def c8Device : Device :=
  ⟨"dev-123", "Example device", .desktop, none, [], false⟩

/-- Concrete fixture for C8: an account with a usable oldsync scoped key
(so KEK derivation succeeds and the lookup failure is the only obstacle). -/
def c8Account : Account :=
  ⟨⟨some "tok", [(OLD_SYNC, ⟨"x-AA", "AA"⟩)], none, []⟩, false⟩

def c8Client : FxAClientModel where
  pendingCommandsHttp := fun _ _ _ => .error .jsonError
  devicesResult := fun _ => .ok [c8Device]
  invokeCommandResult := fun _ _ _ _ => .ok ()
  updateDeviceResult := fun _ _ => .ok ()

/-- **C8, counterexample**: when the target advertises no open-uri entry,
`send_tab` does fail with `UnsupportedCommand` and makes no
invoke-command call, but the error carries the literal label
`"Send Tab"`, not the command name
`https://identity.mozilla.com/cmd/open-uri` as claimed. -/
theorem send_tab_unsupported_carries_label :
    (sendTab c8Client c8Account "dev-123" "Example" "https://example.com").result
      = .error (.unsupportedCommand "Send Tab")
    ∧ FxAError.unsupportedCommand "Send Tab" ≠ FxAError.unsupportedCommand COMMAND_NAME
    ∧ (sendTab c8Client c8Account "dev-123" "Example" "https://example.com").calls
      = [.devices] := by
  refine ⟨rfl, by decide, rfl⟩

/-- **C8, amended**: for every target device whose `available_commands`
has no open-uri entry (with the device found and the KEK derivable),
`send_tab` fails with `UnsupportedCommand` carrying the static label
`"Send Tab"`, and no invoke-command network call is made — the only
network call is the device-directory fetch. -/
theorem send_tab_unsupported_command (client : FxAClientModel) (acct : Account)
    (token target_device_id title url : String) (devices : List Device)
    (target : Device) (ksync kxcs : List Nat)
    (hTok : acct.state.refresh_token = some token)
    (hDevs : client.devicesResult token = .ok devices)
    (hFind : devices.find? (fun d => d.id = target_device_id) = some target)
    (hCmd : alookup target.available_commands COMMAND_NAME = none)
    (hKek : syncKeysAsSendTabKek acct.state = .ok (.syncKeys ksync kxcs)) :
    (sendTab client acct target_device_id title url).result
      = .error (.unsupportedCommand "Send Tab")
    ∧ (sendTab client acct target_device_id title url).calls = [.devices] := by
  simp only [sendTab, getDevices, getRefreshToken, hTok, hDevs, hFind, hKek,
    build_send_command, hCmd]
  refine ⟨?_, ?_⟩ <;> trivial

theorem send_tab_unsupported_command_witness :
    c8Account.state.refresh_token = some "tok"
    ∧ c8Client.devicesResult "tok" = .ok [c8Device]
    ∧ [c8Device].find? (fun d => d.id = "dev-123") = some c8Device
    ∧ alookup c8Device.available_commands COMMAND_NAME = none
    ∧ syncKeysAsSendTabKek c8Account.state = .ok (.syncKeys [0] [0])
    ∧ (sendTab c8Client c8Account "dev-123" "Example" "https://example.com").result
      = .error (.unsupportedCommand "Send Tab")
    ∧ (sendTab c8Client c8Account "dev-123" "Example" "https://example.com").calls
      = [.devices] := by
  refine ⟨rfl, rfl, by decide, rfl, rfl, ?_⟩
  exact send_tab_unsupported_command c8Client c8Account "tok" "dev-123" "Example"
    "https://example.com" [c8Device] c8Device [0] [0] rfl rfl (by decide) rfl rfl

/-! ## Concrete poll fixtures for witnesses -/

/-- An account with a registered persistence callback and no stored mark. -/
def pollAccount : Account :=
  ⟨⟨some "tok", [], none, []⟩, true⟩

/-- The decoded response `pollClientOk` serves. -/
def pollResp : PendingCommandsResponse :=
  ⟨5, none, [⟨5, ⟨"bogus", .null, none⟩⟩]⟩

/-- A relay serving one pending message (batch index 5) and an empty
device list. -/
def pollClientOk : FxAClientModel where
  pendingCommandsHttp := fun _ _ _ => .ok ⟨200, some (.obj
    [("index", .num 5),
     ("messages", .arr [.obj
       [("index", .num 5),
        ("data", .obj [("command", .str "bogus"), ("payload", .null)])]])])⟩
  devicesResult := fun _ => .ok []
  invokeCommandResult := fun _ _ _ _ => .ok ()
  updateDeviceResult := fun _ _ => .ok ()

/-- Same relay, but the device-directory fetch fails. -/
def pollClientDevFail : FxAClientModel where
  pendingCommandsHttp := fun _ _ _ => .ok ⟨200, some (.obj
    [("index", .num 5),
     ("messages", .arr [.obj
       [("index", .num 5),
        ("data", .obj [("command", .str "bogus"), ("payload", .null)])]])])⟩
  devicesResult := fun _ => .error (.httpStatusError 500)
  invokeCommandResult := fun _ _ _ _ => .ok ()
  updateDeviceResult := fun _ _ => .ok ()

/-- A relay with no pending messages. -/
def pollClientEmpty : FxAClientModel where
  pendingCommandsHttp := fun _ _ _ => .ok ⟨200, some (.obj
    [("index", .num 0), ("messages", .arr [])])⟩
  devicesResult := fun _ => .ok []
  invokeCommandResult := fun _ _ _ _ => .ok ()
  updateDeviceResult := fun _ _ => .ok ()

theorem poll_empty_batch_is_noop_witness :
    pollAccount.state.refresh_token = some "tok"
    ∧ clientPendingCommands pollClientEmpty "tok"
        (pollAccount.state.last_handled_command.getD 0 + 1) none = .ok ⟨0, none, []⟩
    ∧ (⟨0, none, []⟩ : PendingCommandsResponse).messages = []
    ∧ (pollRemoteCommands pollClientEmpty pollAccount).result = .ok []
    ∧ (pollRemoteCommands pollClientEmpty pollAccount).state = pollAccount.state
    ∧ (pollRemoteCommands pollClientEmpty pollAccount).persists = 0
    ∧ (pollRemoteCommands pollClientEmpty pollAccount).calls
      = [.pendingCommands (pollAccount.state.last_handled_command.getD 0 + 1)] := by
  refine ⟨rfl, rfl, rfl, ?_⟩
  exact poll_empty_batch_is_noop pollClientEmpty pollAccount "tok" ⟨0, none, []⟩ rfl rfl rfl

theorem poll_request_index_and_high_water_mark_witness :
    pollAccount.state.refresh_token = some "tok"
    ∧ clientPendingCommands pollClientOk "tok"
        (pollAccount.state.last_handled_command.getD 0 + 1) none = .ok pollResp
    ∧ pollResp.messages ≠ []
    ∧ pollClientOk.devicesResult "tok" = .ok []
    ∧ (pollRemoteCommands pollClientOk pollAccount).calls.head?
      = some (.pendingCommands (pollAccount.state.last_handled_command.getD 0 + 1))
    ∧ (pollRemoteCommands pollClientOk pollAccount).state.last_handled_command
      = some pollResp.index := by
  refine ⟨rfl, rfl, by simp [pollResp], rfl, ?_⟩
  exact poll_request_index_and_high_water_mark pollClientOk pollAccount "tok" pollResp []
    rfl rfl (by simp [pollResp]) rfl

theorem poll_aborts_when_device_fetch_fails_witness :
    pollAccount.state.refresh_token = some "tok"
    ∧ clientPendingCommands pollClientDevFail "tok"
        (pollAccount.state.last_handled_command.getD 0 + 1) none = .ok pollResp
    ∧ pollResp.messages ≠ []
    ∧ pollClientDevFail.devicesResult "tok" = .error (.httpStatusError 500)
    ∧ (pollRemoteCommands pollClientDevFail pollAccount).result
      = .error (.httpStatusError 500)
    ∧ (pollRemoteCommands pollClientDevFail pollAccount).state = pollAccount.state
    ∧ (pollRemoteCommands pollClientDevFail pollAccount).persists = 0 := by
  refine ⟨rfl, rfl, by simp [pollResp], rfl, ?_⟩
  exact poll_aborts_when_device_fetch_fails pollClientDevFail pollAccount "tok" pollResp
    (.httpStatusError 500) rfl rfl (by simp [pollResp]) rfl

/-- The C3 scenario's receiving key pair. -/
def c3Keys : PrivateSendTabKeys := ⟨ecePubOfPriv [1, 2], [1, 2], [3, 4]⟩

/-- The C3 scenario's tab. -/
def c3Tab : SendTabPayload := ⟨[⟨"Example", "https://example.com"⟩]⟩

/-- The wire-encrypted form of `c3Tab` against `c3Keys`. -/
def c3Encrypted : String :=
  base64EncodeConfig .urlSafeNoPad
    (eceEncrypt (ecePubOfPriv [1, 2]) [3, 4] (sendTabPayloadToVec c3Tab))

/-- An account holding the cached `c3Keys`, with a persistence callback. -/
def c3Account : Account :=
  ⟨⟨some "tok", [], none, [(COMMAND_NAME, privateSendTabKeysToString c3Keys)]⟩, true⟩

/-- The decoded two-message batch `c3Client` serves: one valid open-uri
command and one message with command name `"bogus"`. -/
def c3Resp : PendingCommandsResponse :=
  ⟨7, none,
   [⟨6, ⟨COMMAND_NAME, .obj [("encrypted", .str c3Encrypted)], none⟩⟩,
    ⟨7, ⟨"bogus", .null, none⟩⟩]⟩

def c3Client : FxAClientModel where
  pendingCommandsHttp := fun _ _ _ => .ok ⟨200, some (.obj
    [("index", .num 7),
     ("messages", .arr
       [.obj [("index", .num 6),
          ("data", .obj [("command", .str COMMAND_NAME),
            ("payload", .obj [("encrypted", .str c3Encrypted)])])],
        .obj [("index", .num 7),
          ("data", .obj [("command", .str "bogus"), ("payload", .null)])]])])⟩
  devicesResult := fun _ => .ok []
  invokeCommandResult := fun _ _ _ _ => .ok ()
  updateDeviceResult := fun _ _ => .ok ()

set_option maxRecDepth 100000 in
theorem poll_skips_failing_messages_witness :
    c3Account.state.refresh_token = some "tok"
    ∧ clientPendingCommands c3Client "tok"
        (c3Account.state.last_handled_command.getD 0 + 1) none = .ok c3Resp
    ∧ c3Resp.messages ≠ []
    ∧ c3Client.devicesResult "tok" = .ok []
    ∧ c3Account.persist_callback = true
    ∧ (pollRemoteCommands c3Client c3Account).result
      = .ok ((c3Resp.messages.map fun m => m.data).filterMap fun data =>
          (handleCommand c3Account.state data []).toOption.map fun r =>
            AccountEvent.tabReceived r.1 r.2)
    ∧ (pollRemoteCommands c3Client c3Account).state.last_handled_command
      = some c3Resp.index
    ∧ (pollRemoteCommands c3Client c3Account).persists = 1
    ∧ (pollRemoteCommands c3Client c3Account).result
      = .ok [.tabReceived none c3Tab] := by
  refine ⟨rfl, rfl, by simp [c3Resp], rfl, rfl, ?_, ?_, ?_, rfl⟩
  · exact (poll_skips_failing_messages c3Client c3Account "tok" c3Resp []
      rfl rfl (by simp [c3Resp]) rfl rfl).1
  · exact (poll_skips_failing_messages c3Client c3Account "tok" c3Resp []
      rfl rfl (by simp [c3Resp]) rfl rfl).2.1
  · exact (poll_skips_failing_messages c3Client c3Account "tok" c3Resp []
      rfl rfl (by simp [c3Resp]) rfl rfl).2.2

def c7Body : Json :=
  .obj [("code", .num 404), ("errno", .num 110), ("error", .str "Not Found"),
    ("message", .str "Unknown"), ("info", .str "")]

theorem poll_error_status_propagates_witness :
    c7Account.state.refresh_token = some "tok"
    ∧ c7Client.pendingCommandsHttp "tok"
        (c7Account.state.last_handled_command.getD 0 + 1) none = .ok ⟨404, some c7Body⟩
    ∧ ¬ ((200 ≤ 404 ∧ 404 < 300) ∨ 404 = 304)
    ∧ (pollRemoteCommands c7Client c7Account).result
      = .error (.remoteError (c7Body.getU64 "code") (c7Body.getU64 "errno")
          (c7Body.getStr "error") (c7Body.getStr "message") (c7Body.getStr "info"))
    ∧ (pollRemoteCommands c7Client c7Account).state = c7Account.state
    ∧ (pollRemoteCommands c7Client c7Account).persists = 0 := by
  refine ⟨rfl, rfl, by norm_num, ?_⟩
  exact poll_error_status_propagates c7Client c7Account "tok" 404 c7Body
    rfl rfl (by norm_num)

/-- **C4**: `SendTabKeysPayload::decrypt` checks the kid first: whenever
the hex-decoded kid differs from the local `kxcs` it fails with
`MismatchedKeys` — for *every* `ksync` (even one the key bundle would
reject) and every `hmac`/`iv`/`ciphertext` content, which shows the check
precedes all HMAC and decryption work; and when the kid matches but the
HMAC over the base64 ciphertext text does not verify, it fails with
`HmacMismatch` for every ciphertext content, never reaching decryption. -/
theorem keywrap_decrypt_check_order (blob : SendTabKeysPayload) (ksync kxcs : List Nat) :
    (∀ kidBytes, hexDecode blob.kid = some kidBytes → kidBytes ≠ kxcs →
      blob.decrypt ksync kxcs = .error .mismatchedKeys)
    ∧ (hexDecode blob.kid = some kxcs → ksync.length = 64 →
      verifyHmacString (ksync.drop 32) blob.hmac (strBytes blob.ciphertext) ≠ true →
      blob.decrypt ksync kxcs = .error .hmacMismatch) := by
  constructor
  · intro kidBytes hKid hNe
    simp only [SendTabKeysPayload.decrypt, hKid]
    rw [if_pos hNe]
  · intro hKid hLen hHmac
    have hKB : keyBundleFromKsyncBytes ksync = .ok ⟨ksync.take 32, ksync.drop 32⟩ := by
      unfold keyBundleFromKsyncBytes
      rw [if_pos hLen]
    simp only [SendTabKeysPayload.decrypt, hKid, hKB]
    rw [if_neg (fun h => h rfl)]
    rw [if_pos hHmac]

def c4BlobA : SendTabKeysPayload := ⟨"ff", "", "", ""⟩

def c4BlobB : SendTabKeysPayload := ⟨hexEncode [1], "", "wrong", ""⟩

theorem keywrap_decrypt_check_order_witness :
    hexDecode c4BlobA.kid = some [255]
    ∧ [255] ≠ [1]
    ∧ c4BlobA.decrypt [] [1] = .error .mismatchedKeys
    ∧ hexDecode c4BlobB.kid = some [1]
    ∧ (List.replicate 64 0 : List Nat).length = 64
    ∧ verifyHmacString ((List.replicate 64 0 : List Nat).drop 32) c4BlobB.hmac
        (strBytes c4BlobB.ciphertext) ≠ true
    ∧ c4BlobB.decrypt (List.replicate 64 0) [1] = .error .hmacMismatch := by
  refine ⟨rfl, by decide, (keywrap_decrypt_check_order c4BlobA [] [1]).1 [255] rfl (by decide),
    rfl, by decide, by decide,
    (keywrap_decrypt_check_order c4BlobB (List.replicate 64 0) [1]).2 rfl (by decide) (by decide)⟩

theorem publicSendTabKeysFromStr_encode (a b : String) :
    publicSendTabKeysFromStr (encodeFields [a, b]) = some ⟨a, b⟩ := by
  unfold publicSendTabKeysFromStr
  rw [decodeFields_encodeFields]

/-- **C5**: KeyWrap round-trip.  For every public-key record and every
KEK (64-byte `ksync`, byte-valued `kxcs`) and IV, encryption succeeds,
decrypting its output with the same `ksync`/`kxcs` returns the original
record, and the stored `hmac` field is the bundle HMAC computed over the
**base64 text** of the ciphertext (the bytes of `blob.ciphertext`), not
over the raw ciphertext bytes. -/
theorem keywrap_roundtrip (pk : PublicSendTabKeys) (ksync kxcs iv : List Nat)
    (hK : ksync.length = 64) (hX : ValidBytes kxcs) (hIV : ValidBytes iv) :
    ∃ blob, pk.encrypt ksync kxcs iv = .ok blob
      ∧ blob.decrypt ksync kxcs = .ok pk
      ∧ blob.hmac = hmacString (ksync.drop 32) (strBytes blob.ciphertext) := by
  have hKB : keyBundleFromKsyncBytes ksync = .ok ⟨ksync.take 32, ksync.drop 32⟩ := by
    unfold keyBundleFromKsyncBytes
    rw [if_pos hK]
  refine ⟨⟨hexEncode kxcs, base64EncodeConfig .standard iv,
    hmacString (ksync.drop 32) (strBytes (base64EncodeConfig .standard
      (cipherEncryptBytes ⟨ksync.take 32, ksync.drop 32⟩ (publicSendTabKeysToVec pk) iv))),
    base64EncodeConfig .standard
      (cipherEncryptBytes ⟨ksync.take 32, ksync.drop 32⟩ (publicSendTabKeysToVec pk) iv)⟩,
    ?_, ?_, rfl⟩
  · simp only [PublicSendTabKeys.encrypt, hKB]
  · simp only [SendTabKeysPayload.decrypt, hexDecode_hexEncode kxcs hX, hKB]
    rw [if_neg (fun h => h rfl)]
    rw [if_neg (fun h => h (by unfold verifyHmacString; simp))]
    rw [base64Decode_base64Encode .standard iv hIV]
    rw [base64Decode_base64Encode .standard _
      (cipherEncryptBytes_valid ⟨ksync.take 32, ksync.drop 32⟩ (publicSendTabKeysToVec pk) iv)]
    show (match bytesToString (cipherDecryptBytes ⟨ksync.take 32, ksync.drop 32⟩
        (cipherEncryptBytes ⟨ksync.take 32, ksync.drop 32⟩ (publicSendTabKeysToVec pk) iv) iv) with
      | none => (.error .cryptoError : Except FxAError PublicSendTabKeys)
      | some cleartext =>
        match publicSendTabKeysFromStr cleartext with
        | none => .error .jsonError
        | some keys => .ok keys) = .ok pk
    rw [cipherDecrypt_cipherEncrypt ⟨ksync.take 32, ksync.drop 32⟩ (publicSendTabKeysToVec pk) iv
      (strBytes_valid _)]
    show (match bytesToString (publicSendTabKeysToVec pk) with
      | none => (.error .cryptoError : Except FxAError PublicSendTabKeys)
      | some cleartext =>
        match publicSendTabKeysFromStr cleartext with
        | none => .error .jsonError
        | some keys => .ok keys) = .ok pk
    unfold publicSendTabKeysToVec
    rw [bytesToString_strBytes]
    show (match publicSendTabKeysFromStr (encodeFields [pk.public_key, pk.auth_secret]) with
      | none => (.error .jsonError : Except FxAError PublicSendTabKeys)
      | some keys => .ok keys) = .ok pk
    rw [publicSendTabKeysFromStr_encode]

theorem keywrap_roundtrip_witness :
    (List.replicate 64 7 : List Nat).length = 64
    ∧ ValidBytes [1, 2]
    ∧ ValidBytes [9, 8]
    ∧ ∃ blob, PublicSendTabKeys.encrypt ⟨"pub", "auth"⟩ (List.replicate 64 7) [1, 2] [9, 8]
        = .ok blob
      ∧ blob.decrypt (List.replicate 64 7) [1, 2] = .ok ⟨"pub", "auth"⟩
      ∧ blob.hmac = hmacString ((List.replicate 64 7 : List Nat).drop 32)
          (strBytes blob.ciphertext) := by
  refine ⟨by decide, by decide, by decide, ?_⟩
  exact keywrap_roundtrip ⟨"pub", "auth"⟩ (List.replicate 64 7) [1, 2] [9, 8]
    (by decide) (by decide) (by decide)

/-- `update_device` (and hence `register_command`) never writes the
account state and never reaches the persistence callback. -/
theorem updateDevice_state_persists (client : FxAClientModel) (st : StateV2)
    (update : DeviceUpdateRequest) :
    (updateDevice client st update).state = st
    ∧ (updateDevice client st update).persists = 0 := by
  unfold updateDevice
  cases getRefreshToken st <;> exact ⟨rfl, rfl⟩

/-- `register_command` never writes the account state and never reaches
the persistence callback. -/
theorem registerCommand_state_persists (client : FxAClientModel) (st : StateV2)
    (command value : String) :
    (registerCommand client st command value).state = st
    ∧ (registerCommand client st command value).persists = 0 := by
  unfold registerCommand
  exact updateDevice_state_persists client st _

/-- The publication tail of `ensure_send_tab_registered` neither writes
the account state nor adds persistence-callback runs beyond the ones
already counted. -/
theorem ensurePublish_state_persists (client : FxAClientModel) (st : StateV2)
    (own_keys : PrivateSendTabKeys) (iv : List Nat) (p : Nat) :
    (ensureSendTabRegisteredPublish client st own_keys iv p).state = st
    ∧ (ensureSendTabRegisteredPublish client st own_keys iv p).persists = p := by
  rcases hk : syncKeysAsSendTabKek st with e | kek
  · simp only [ensureSendTabRegisteredPublish, hk]
    refine ⟨?_, ?_⟩ <;> trivial
  · rcases hc : (publicSendTabKeysOfPrivate own_keys).as_command_data kek iv with e | command_data
    · simp only [ensureSendTabRegisteredPublish, hk, hc]
      refine ⟨?_, ?_⟩ <;> trivial
    · have h := registerCommand_state_persists client st COMMAND_NAME command_data
      rcases hr : registerCommand client st COMMAND_NAME command_data with ⟨r, st2, calls, p2⟩
      rw [hr] at h
      simp only at h
      simp only [ensureSendTabRegisteredPublish, hk, hc, hr]
      refine ⟨h.1, ?_⟩
      rw [h.2, Nat.add_zero]

/-- **C6**: `ensure_send_tab_registered` is idempotent on key material.
On a state with no cached send-tab keys, the first call persists exactly
once (key creation) and caches the freshly generated keys; a second call
— whatever key material the RNG would produce this time — takes the
cache hit path: it leaves `commands_data` byte-identical and does not
trigger the persistence callback at all. -/
theorem ensure_send_tab_registered_idempotent (client : FxAClientModel)
    (acct : Account) (fresh fresh2 : PrivateSendTabKeys) (iv iv2 : List Nat)
    (hAbsent : alookup acct.state.commands_data COMMAND_NAME = none)
    (hwf : fresh.wf)
    (hCb : acct.persist_callback = true) :
    (ensureSendTabRegistered client acct fresh iv).persists = 1
    ∧ (ensureSendTabRegistered client acct fresh iv).state.commands_data
      = ainsert acct.state.commands_data COMMAND_NAME (privateSendTabKeysToString fresh)
    ∧ (ensureSendTabRegistered client
        ⟨(ensureSendTabRegistered client acct fresh iv).state, acct.persist_callback⟩
        fresh2 iv2).state.commands_data
      = (ensureSendTabRegistered client acct fresh iv).state.commands_data
    ∧ (ensureSendTabRegistered client
        ⟨(ensureSendTabRegistered client acct fresh iv).state, acct.persist_callback⟩
        fresh2 iv2).persists = 0 := by
  have hFirst : ensureSendTabRegistered client acct fresh iv = ensureSendTabRegisteredPublish client { acct.state with commands_data := ainsert acct.state.commands_data COMMAND_NAME (privateSendTabKeysToString fresh) } fresh iv (maybeCallPersistCallback acct) := by
    simp only [ensureSendTabRegistered, hAbsent]
  have hP1 := ensurePublish_state_persists client { acct.state with commands_data := ainsert acct.state.commands_data COMMAND_NAME (privateSendTabKeysToString fresh) } fresh iv (maybeCallPersistCallback acct)
  have hState1 : (ensureSendTabRegistered client acct fresh iv).state.commands_data
      = ainsert acct.state.commands_data COMMAND_NAME (privateSendTabKeysToString fresh) := by
    rw [hFirst, hP1.1]
  have hPers1 : (ensureSendTabRegistered client acct fresh iv).persists = 1 := by
    rw [hFirst, hP1.2]
    unfold maybeCallPersistCallback
    rw [hCb]
    rfl
  have hLook2 : alookup (ensureSendTabRegistered client acct fresh iv).state.commands_data
      COMMAND_NAME = some (privateSendTabKeysToString fresh) := by
    rw [hState1]
    exact alookup_ainsert acct.state.commands_data COMMAND_NAME
      (privateSendTabKeysToString fresh)
  have hSecond : ensureSendTabRegistered client
      ⟨(ensureSendTabRegistered client acct fresh iv).state, acct.persist_callback⟩
      fresh2 iv2
      = ensureSendTabRegisteredPublish client
          (ensureSendTabRegistered client acct fresh iv).state fresh iv2 0 := by
    generalize hS : (ensureSendTabRegistered client acct fresh iv).state = stAfter at hLook2 ⊢
    simp only [ensureSendTabRegistered, hLook2, privateSendTabKeys_roundTrip fresh hwf]
  have hP2 := ensurePublish_state_persists client
    (ensureSendTabRegistered client acct fresh iv).state fresh iv2 0
  refine ⟨hPers1, hState1, ?_, ?_⟩
  · rw [hSecond, hP2.1]
  · rw [hSecond, hP2.2]

def c6Fresh : PrivateSendTabKeys := ⟨[8, 15], [1, 2], [3, 4]⟩

def c6Account : Account := ⟨⟨some "tok", [(OLD_SYNC, ⟨"x-AA", "AA"⟩)], none, []⟩, true⟩

def c6Client : FxAClientModel where
  pendingCommandsHttp := fun _ _ _ => .error .jsonError
  devicesResult := fun _ => .ok []
  invokeCommandResult := fun _ _ _ _ => .ok ()
  updateDeviceResult := fun _ _ => .ok ()

theorem ensure_send_tab_registered_idempotent_witness :
    alookup c6Account.state.commands_data COMMAND_NAME = none
    ∧ c6Fresh.wf
    ∧ c6Account.persist_callback = true
    ∧ (ensureSendTabRegistered c6Client c6Account c6Fresh [5]).persists = 1
    ∧ (ensureSendTabRegistered c6Client c6Account c6Fresh [5]).state.commands_data
      = ainsert c6Account.state.commands_data COMMAND_NAME
          (privateSendTabKeysToString c6Fresh)
    ∧ (ensureSendTabRegistered c6Client
        ⟨(ensureSendTabRegistered c6Client c6Account c6Fresh [5]).state,
          c6Account.persist_callback⟩
        ⟨[6], [7], [8]⟩ [9]).state.commands_data
      = (ensureSendTabRegistered c6Client c6Account c6Fresh [5]).state.commands_data
    ∧ (ensureSendTabRegistered c6Client
        ⟨(ensureSendTabRegistered c6Client c6Account c6Fresh [5]).state,
          c6Account.persist_callback⟩
        ⟨[6], [7], [8]⟩ [9]).persists = 0 := by
  refine ⟨rfl, by decide, rfl, ?_⟩
  exact ensure_send_tab_registered_idempotent c6Client c6Account c6Fresh ⟨[6], [7], [8]⟩
    [5] [9] rfl (by decide) rfl
